import Mathlib

/-!
Verification of the CardStock repository's core specification claims.

The Python sources are shallowly embedded as Lean functions:
  * `stackModel.py` (StackModel.GetModelFromPath, Stack.card_with_number),
  * `page.py` (PageWindow.GetNextAvailableName),
  * `stackManager.py` (LoadCardAtIndex, SelectUiView, RemoveUiViewByModel,
    AddUiViewsFromModels),
  * `cardstock/viewer.py` (GosubStack, PushStack, PopStack, RunViewer).
Stateful methods become functions on explicit state records; Python exceptions
that escape a method are represented by `Option`/result constructors.
-/

namespace CardStock

/-! ### Entity-model tree and `StackModel.GetModelFromPath`
(src/cardstock/stackModel.py lines 60-72).
A node carries its `properties['name']` and its ordered `childModels`. -/

inductive MNode where
  | node (name : String) (children : List MNode)

def MNode.name : MNode → String
  | .node n _ => n

def MNode.children : MNode → List MNode
  | .node _ c => c

/-- Python `str.split(sep)` on a single separator character, written by
structural recursion over the character list (`"a.b"` gives `["a","b"]`,
`""` gives `[""]`, `"a..b"` gives `["a","","b"]`). -/
def pySplitAux (sep : Char) : List Char → List (List Char)
  | [] => [[]]
  | c :: rest =>
    match pySplitAux sep rest with
    | g :: gs => if c = sep then [] :: g :: gs else (c :: g) :: gs
    | [] => [[c]]

def pySplit (sep : Char) (s : String) : List String :=
  (pySplitAux sep s.data).map List.asString

/-- The loop body of `GetModelFromPath`: for each path part, linearly scan the
current node's `childModels` for the first child whose `name` equals the part;
if no part matches, the whole lookup returns `None`. -/
def getModelFromPathParts : List String → MNode → Option MNode
  | [], m => some m
  | p :: ps, m =>
    match m.children.find? (fun c => c.name == p) with
    | some c => getModelFromPathParts ps c
    | none => none

/-- `StackModel.GetModelFromPath(path)`: split the path on `.` and walk the
child lists by name, starting at the receiver. -/
def GetModelFromPath (m : MNode) (path : String) : Option MNode :=
  getModelFromPathParts (pySplit '.' path) m

/-- The node named `button1`, placed inside the second card. -/
def button1Node : MNode := .node "button1" []

/-- A freshly loaded three-card document: the default card names produced by
the application are `card_1`, `card_2`, `card_3` (see
`StackManager.AddCard`, src/stackManager.py line 452); `button1` lives on the
card at index 1. -/
def freshStack3 : MNode :=
  .node "stack"
    [ .node "card_1" []
    , .node "card_2" [button1Node]
    , .node "card_3" [.node "label_1" []] ]

/-! ### `Stack.card_with_number` (src/cardstock/stackModel.py lines 110-117). -/

/-- The Python argument values relevant to `card_with_number`: an `int`, or a
representative non-int value (a string, or `None`). -/
inductive PyVal where
  | int (n : Int)
  | str (s : String)
  | pyNone
  deriving DecidableEq

/-- Result of a `card_with_number` call: the proxy of a card (identified by
the card's name), a raised `TypeError` or `ValueError`, or Python `None`. -/
inductive CardNumResult where
  | proxy (cardName : String)
  | typeError
  | valueError
  | pyNone
  deriving DecidableEq

/-- State read by `card_with_number`: the `didSetDown` teardown flag and the
stack's `childModels` (cards, identified by name). -/
structure StackSt where
  didSetDown : Bool
  childModels : List String
  deriving DecidableEq

/-- `Stack.card_with_number(number)`.  The source checks `didSetDown` first
(returning `None`), then `isinstance(number, int)` (raising `TypeError`),
then the 1-based bounds (raising `ValueError`), and finally returns
`childModels[number-1].GetProxy()`.  The state is returned unchanged: the
method only reads the model. -/
def card_with_number (st : StackSt) (number : PyVal) : CardNumResult × StackSt :=
  if st.didSetDown then (.pyNone, st)
  else
    match number with
    | .int n =>
      if n < 1 ∨ n > (st.childModels.length : Int) then (.valueError, st)
      else (.proxy (st.childModels.getD (n - 1).toNat ""), st)
    | _ => (.typeError, st)

/-! ### `PageWindow.GetNextAvailableName` (src/page.py lines 209-216).

The source builds `names = map(..., self.uiViews)`: a Python `map` object is a
ONE-SHOT iterator, and the repeated `name not in names` tests inside the
`while True` loop each consume it.  A membership test scans elements one by
one: on a hit it stops (consuming everything up to and including the match)
and the loop retries `base + str(i+1)` against the iterator's remainder; when
the iterator is exhausted the test reports "not in" and the current candidate
is returned.  `GetNextAvailableNameAux base i rem` is that combined
loop-plus-scan over the iterator's remaining elements `rem`. -/

def GetNextAvailableNameAux (base : String) (i : Nat) : List String → String
  | [] => base ++ toString i
  | x :: xs =>
    if x == base ++ toString i then GetNextAvailableNameAux base (i + 1) xs
    else GetNextAvailableNameAux base i xs

/-- `PageWindow.GetNextAvailableName(base)`, with `names` the sequence of the
page's uiView names (in list order) feeding the one-shot `map` iterator. -/
def GetNextAvailableName (base : String) (names : List String) : String :=
  GetNextAvailableNameAux base 1 names

end CardStock

namespace CardStock

/-! ## Theorems for claims C8, C10, C7 -/

/-- C8 counterexample: on a freshly loaded 3-card document, the path
`"1.button1"` does NOT return the node named `button1` inside card index 1 —
`GetModelFromPath` matches path parts against child *names*, and no card of a
fresh document is named `"1"`, so the lookup is not-found. -/
theorem c8_counterexample :
    GetModelFromPath freshStack3 "1.button1" = none ∧
    GetModelFromPath freshStack3 "1.button1" ≠ some button1Node := by
  refine ⟨rfl, ?_⟩
  intro h
  exact Option.noConfusion h

/-- C8 amended: `GetModelFromPath` resolves a dot-separated path of sibling
*names* starting at the given root, returning the node or a not-found result;
on a freshly loaded 3-card document the path `"card_2.button1"` (naming the
card at index 1) returns the node named `button1` inside card index 1, and the
path `"5.x"` returns not-found. -/
theorem c8_amended :
    GetModelFromPath freshStack3 "card_2.button1" = some button1Node ∧
    GetModelFromPath freshStack3 "5.x" = none :=
  ⟨rfl, rfl⟩

/-- A stack whose `didSetDown` flag is set (the document has been torn down). -/
def stTornDown : StackSt := { didSetDown := true, childModels := ["card_1"] }

/-- C10 counterexample: `card_with_number` does NOT raise a `TypeError` for
every non-int argument — when the stack has been torn down (`didSetDown`),
the method returns `None` before any argument validation. -/
theorem c10_counterexample :
    card_with_number stTornDown (.str "x") = (.pyNone, stTornDown) ∧
    (card_with_number stTornDown (.str "x")).1 ≠ .typeError := by
  decide

/-- C10 amended: provided the stack has not been torn down
(`didSetDown = false`), `card_with_number` uses 1-based numbering and
validates its argument: every non-int argument raises `TypeError`; every int
outside `[1, number-of-cards]` raises `ValueError`; and every int `k+1` with
`k < number-of-cards` returns the proxy of the card at index `k`, mutating
nothing (the state component of the result is the input state).  When the
stack has been torn down it instead returns `None` for any argument. -/
theorem c10_amended (st : StackSt) (h : st.didSetDown = false) :
    (∀ s, card_with_number st (.str s) = (.typeError, st))
    ∧ card_with_number st .pyNone = (.typeError, st)
    ∧ (∀ n : Int, (n < 1 ∨ n > (st.childModels.length : Int)) →
        card_with_number st (.int n) = (.valueError, st))
    ∧ (∀ (k : Nat) (hk : k < st.childModels.length),
        card_with_number st (.int ((k : Int) + 1)) =
          (.proxy (st.childModels.get ⟨k, hk⟩), st)) := by
  refine ⟨fun s => by simp [card_with_number, h], by simp [card_with_number, h],
    fun n hn => by simp only [card_with_number, h, Bool.false_eq_true, if_false]
                   rw [if_pos hn], fun k hk => ?_⟩
  simp only [card_with_number, h, Bool.false_eq_true, if_false]
  rw [if_neg]
  · have hidx : ((k : Int) + 1 - 1).toNat = k := by omega
    rw [hidx, List.getD_eq_getElem?_getD, List.getElem?_eq_getElem hk]
    simp
  · omega

/-- C10 witness: applying the amended theorem at the concrete 3-card stack
with card number 2. -/
theorem c10_witness :
    ({ didSetDown := false, childModels := ["card_1", "card_2", "card_3"] } :
        StackSt).didSetDown = false ∧
    card_with_number
        { didSetDown := false, childModels := ["card_1", "card_2", "card_3"] }
        (.int 2) =
      (.proxy "card_2",
        { didSetDown := false, childModels := ["card_1", "card_2", "card_3"] }) := by
  refine ⟨rfl, ?_⟩
  have h := (c10_amended
    { didSetDown := false, childModels := ["card_1", "card_2", "card_3"] }
    rfl).2.2.2 1 (by decide)
  norm_num at h
  exact h

/-- C7: evaluating `GetNextAvailableName` at the failing input.  On a page
whose uiViews are named `card2`, `card1` (in that order), deduplicating the
base `card` returns `card2`, a name ALREADY IN the existing list — the
one-shot `map` iterator was exhausted by the first membership test, so the
second test vacuously reports "not in".  The spec's own example does come out
as specified (`card` against `["card","card1"]` gives `card2`), and the
function is deterministic by construction, but the returned name is not
always fresh. -/
theorem c7_code_eval :
    GetNextAvailableName "card" ["card2", "card1"] = "card2" ∧
    "card2" ∈ ["card2", "card1"] ∧
    GetNextAvailableName "card" ["card", "card1"] = "card2" := by
  decide

/-! ### The StackManager (src/stackManager.py)

State relevant to `LoadCardAtIndex` (lines 161-184), `SelectUiView`
(lines 346-366), `RemoveUiViewByModel` (lines 395-407) and
`AddUiViewsFromModels` (lines 321-341).

A `VM` is a view/card model (its `name` and `type` properties); a `UiV` is a
ui-view object wrapping a model.  `UiV.parentType` is the `model.type` of the
ui object's `parent` ui (`none` models the root `UiCard`'s `parent = None`).
Python object identity for ui views is modelled by the `id` field (fresh ids
are drawn from `SMState.nextUiId`). -/

structure VM where
  name : String
  type : String
  deriving DecidableEq

structure UiV where
  id : Nat
  vm : VM
  parentType : Option String
  deriving DecidableEq

/-- A card model: its own view model (`type = "card"`), its `childModels`,
and the text of its `OnShowCard` handler (`""` when absent, the default of
`GetHandler`). -/
structure Card where
  vm : VM
  children : List VM
  onShowCard : String
  deriving DecidableEq

/-- Calls made to the external handler runner. -/
inductive Ev where
  | runHandler (cardName : String) (eventName : String)
  | setupForCard (cardName : String)
  deriving DecidableEq

/-- Modelled from the spec: the undo history kept by the external
`wx.lib.docview.CommandProcessor` (§4.2) — a linear sequence of committed
command descriptors plus a cursor; `Submit` truncates the redo tail, appends,
and advances the cursor. -/
structure CmdHistory where
  commands : List String
  cursor : Nat
  deriving DecidableEq

structure SMState where
  isEditing : Bool
  hasRunner : Bool
  cards : List Card
  cardIndex : Option Int
  uiCardUi : UiV
  uiViews : List UiV
  selectedViews : List UiV
  history : CmdHistory
  nextUiId : Nat
  deriving DecidableEq

/-- Python list indexing (supports negative indices; out-of-range is an
`IndexError`, i.e. `none`). -/
def pyListIdx (i : Int) (n : Nat) : Option Nat :=
  if 0 ≤ i ∧ i < (n : Int) then some i.toNat
  else if -(n : Int) ≤ i ∧ i < 0 then some ((n : Int) + i).toNat
  else none

def listGetPy (l : List α) (i : Int) : Option α :=
  (pyListIdx i l.length).bind l.get?

def listModify (f : α → α) : Nat → List α → List α
  | _, [] => []
  | 0, x :: xs => f x :: xs
  | n + 1, x :: xs => x :: listModify f n xs

/-- `self.stackModel.childModels[i]` / `GetCardModel(i)`. -/
def SMState.getCard (s : SMState) (i : Int) : Option Card :=
  listGetPy s.cards i

/-- The card object aliased by `self.uiCard.model` — under the invariant
maintained by `LoadCardAtIndex`, the card at `self.cardIndex`. -/
def SMState.currentCard (s : SMState) : Option Card :=
  s.cardIndex.bind s.getCard

/-- Mutation through the `self.uiCard.model` alias: rewrite the card at
`self.cardIndex` inside `stackModel.childModels`.  (Unreachable fallback:
with no valid current card the mutation has no observable model target.) -/
def SMState.modifyCurrentCard (s : SMState) (f : Card → Card) : SMState :=
  { s with cards :=
      match s.cardIndex with
      | some i =>
        match pyListIdx i s.cards.length with
        | some k => listModify f k s.cards
        | none => s.cards
      | none => s.cards }

/-- Head-guard helpers for `SelectUiView` (Python evaluates
`self.selectedViews[0]` only behind a `len(self.selectedViews)` check). -/
def headParentIsGroup : List UiV → Bool
  | [] => false
  | x :: _ => x.parentType == some "group"

def headIsCard : List UiV → Bool
  | [] => false
  | x :: _ => x.vm.type == "card"

def uiParentIsGroup : Option UiV → Bool
  | some u => u.parentType == some "group"
  | none => false

def uiIsCard : Option UiV → Bool
  | some u => u.vm.type == "card"
  | none => false

/-- `StackManager.SelectUiView(uiView, extend)` (src/stackManager.py 346-366).
Everything is inside `if self.isEditing:`.  The three guards successively
force `extend` to `False`; then a non-extending call deselects everything;
finally the given view is toggled out of or appended to the selection.  The
per-view `SetSelected` flags and the designer notification are view-side
effects outside this model. -/
def SelectUiView (s : SMState) (uiView : Option UiV) (extend : Bool) : SMState :=
  if s.isEditing then
    let e1 := if extend && uiParentIsGroup uiView then false else extend
    let e2 := if e1 && !s.selectedViews.isEmpty && headParentIsGroup s.selectedViews
              then false else e1
    let e3 := if e2 && uiView.isSome &&
                 (uiIsCard uiView != (!s.selectedViews.isEmpty && headIsCard s.selectedViews))
              then false else e2
    let s1 := if !s.selectedViews.isEmpty && !e3 then { s with selectedViews := [] } else s
    match uiView with
    | some u =>
      if e3 = true ∧ u ∈ s1.selectedViews then
        { s1 with selectedViews := s1.selectedViews.erase u }
      else
        { s1 with selectedViews := s1.selectedViews ++ [u] }
    | none => s1
  else s

/-- `StackManager.ClearAllViews` (src/stackManager.py 130-135): deselect all,
then drop (and destroy) every non-card ui view. -/
def ClearAllViews (s : SMState) : SMState :=
  let s := SelectUiView s none false
  { s with uiViews := s.uiViews.filter (fun ui => ui.vm.type == "card") }

/-- `StackManager.AddUiViewInternal` (src/stackManager.py 289-319), in the
branch where a model is supplied: create the ui object for the model (its
parent is `self.uiCard`, whose model type is `"card"`), append it to
`self.uiViews`, set `model.parent = self.uiCard.model`, and add the model to
the current card's `childModels` unless it is already there. -/
def AddUiViewInternal (s : SMState) (model : VM) : SMState :=
  let ui : UiV := { id := s.nextUiId, vm := model, parentType := some "card" }
  let s := { s with uiViews := s.uiViews ++ [ui], nextUiId := s.nextUiId + 1 }
  if (s.currentCard.map (fun c => c.children.contains model)).getD false then s
  else s.modifyCurrentCard (fun c => { c with children := c.children ++ [model] })

/-- Modelled from the spec: `AddUiViewsCommand.Do` lives in `commands.py`,
which is not under src/; per §2/§4.2 the command's forward operation applies
the bulk mutation once, adding each view via `AddUiViewInternal`
(src/stackManager.py 289). -/
def AddUiViewsCommandDo (models : List VM) (s : SMState) : SMState :=
  models.foldl AddUiViewInternal s

/-- Modelled from the spec: `CommandProcessor.Submit` is external
(wx.lib.docview); per §4.2, Submit executes the command and, when `storeIt`,
truncates the redo branch, appends the command and advances the cursor. -/
def CommandProcessorSubmit (s : SMState) (doFn : SMState → SMState)
    (desc : String) (storeIt : Bool) : SMState :=
  let s := doFn s
  if storeIt then
    { s with history :=
        { commands := s.history.commands.take s.history.cursor ++ [desc],
          cursor := s.history.cursor + 1 } }
  else s

/-- Modelled from the spec: `DeduplicateNameInCard` lives in `uiCard.py`,
which is not under src/; per §4.1, name deduplication appends/increments a
numeric suffix until the proposed name is unique among the card's existing
child names.  (The fuel `existing.length + 1` bounds the search; it is ample
because at most `existing.length` candidates can collide.) -/
def dedupLoop (base : String) (existing : List String) : Nat → Nat → String
  | 0, i => base ++ toString i
  | fuel + 1, i =>
    let cand := base ++ toString i
    if cand ∈ existing then dedupLoop base existing fuel (i + 1) else cand

def DeduplicateNameInCard (s : SMState) (name : String) : String :=
  let existing := (s.currentCard.map (fun c => c.children.map (·.name))).getD []
  if name ∈ existing then dedupLoop name existing (existing.length + 1) 1 else name

/-- `StackManager.AddUiViewsFromModels(models, canUndo)`
(src/stackManager.py 321-341): rename each model that is not already one of
the current card's children, build an `AddUiViewsCommand`, and either Submit
it (recording it in the undo history) or, when `canUndo=False`, run
`command.Do()` directly so the undo queue is untouched. -/
def AddUiViewsFromModels (s : SMState) (models : List VM) (canUndo : Bool) : SMState :=
  let models := models.map (fun m =>
    if (s.currentCard.map (fun c => c.children.contains m)).getD false then m
    else { m with name := DeduplicateNameInCard s m.name })
  if canUndo then CommandProcessorSubmit s (AddUiViewsCommandDo models) "Add Views" true
  else AddUiViewsCommandDo models s

/-- `StackManager.RemoveUiViewByModel(viewModel)` (src/stackManager.py
395-407): find the first ui view whose model is `viewModel`; if it is
selected, toggle it out of the selection via `SelectUiView(ui, True)`; detach
the model (`parent = None`), drop the ui from `self.uiViews`, and remove the
model from the current card's `childModels`. -/
def RemoveUiViewByModel (s : SMState) (viewModel : VM) : SMState :=
  match s.uiViews.find? (fun ui => ui.vm == viewModel) with
  | some ui =>
    let s := if ui ∈ s.selectedViews then SelectUiView s (some ui) true else s
    let s := { s with uiViews := s.uiViews.erase ui }
    s.modifyCurrentCard (fun c => { c with children := c.children.erase viewModel })
  | none => s

/-- `StackManager.LoadCardAtIndex(index, reload)` (src/stackManager.py
161-184).  Returns the new state together with the calls made to the handler
runner, or `none` when the Python code would raise (card index out of range).
In order: fire `OnHideCard` on the previously loaded card (viewer mode only,
skipped on reload), update `cardIndex`, clear the views, then — when a card
is to be loaded — rebuild the ui views (`CreateViews`: point `uiCard` at the
card model, reset `uiViews`, add the card's children without touching undo),
select the card itself, and in viewer mode set up the runner for the card and
fire `OnShowCard` when the card has a non-empty `OnShowCard` handler
(skipped on reload). -/
def LoadCardAtIndex (s : SMState) (index : Option Int) (reload : Bool) :
    Option (SMState × List Ev) :=
  if index ≠ s.cardIndex ∨ reload then do
    let evs1 ←
      if !s.isEditing && s.cardIndex.isSome && !reload then do
        match s.cardIndex with
        | some i => do
          let oldCardModel ← s.getCard i
          pure (if s.hasRunner then [Ev.runHandler oldCardModel.vm.name "OnHideCard"] else [])
        | none => pure []
      else pure ([] : List Ev)
    let s := { s with cardIndex := index }
    let s := ClearAllViews s
    match index with
    | some i => do
      let cardModel ← s.getCard i
      let s := { s with
        uiCardUi := { s.uiCardUi with vm := cardModel.vm },
        uiViews := [] }
      let s := AddUiViewsFromModels s cardModel.children false
      let s := SelectUiView s (some s.uiCardUi) false
      let evs2 :=
        if !s.isEditing && s.hasRunner then
          [Ev.setupForCard cardModel.vm.name] ++
            (if !reload && cardModel.onShowCard ≠ "" then
              [Ev.runHandler cardModel.vm.name "OnShowCard"]
            else [])
        else []
      pure (s, evs1 ++ evs2)
    | none => pure (s, evs1)
  else pure (s, [])

/-- The will-hide/did-show lifecycle events among the runner calls. -/
def isLifecycleEv : Ev → Bool
  | .runHandler _ e => e == "OnHideCard" || e == "OnShowCard"
  | _ => false

def lifecycleEvents (l : List Ev) : List Ev :=
  l.filter isLifecycleEv

/-! ### Field-preservation lemmas for the StackManager operations -/

theorem modifyCurrentCard_fields (s : SMState) (f : Card → Card) :
    (s.modifyCurrentCard f).isEditing = s.isEditing
    ∧ (s.modifyCurrentCard f).hasRunner = s.hasRunner
    ∧ (s.modifyCurrentCard f).cardIndex = s.cardIndex
    ∧ (s.modifyCurrentCard f).uiCardUi = s.uiCardUi
    ∧ (s.modifyCurrentCard f).uiViews = s.uiViews
    ∧ (s.modifyCurrentCard f).selectedViews = s.selectedViews
    ∧ (s.modifyCurrentCard f).history = s.history
    ∧ (s.modifyCurrentCard f).nextUiId = s.nextUiId :=
  ⟨rfl, rfl, rfl, rfl, rfl, rfl, rfl, rfl⟩

theorem AddUiViewInternal_fields (s : SMState) (m : VM) :
    (AddUiViewInternal s m).isEditing = s.isEditing
    ∧ (AddUiViewInternal s m).hasRunner = s.hasRunner
    ∧ (AddUiViewInternal s m).cardIndex = s.cardIndex
    ∧ (AddUiViewInternal s m).uiCardUi = s.uiCardUi
    ∧ (AddUiViewInternal s m).selectedViews = s.selectedViews
    ∧ (AddUiViewInternal s m).history = s.history := by
  simp only [AddUiViewInternal]
  split
  · exact ⟨rfl, rfl, rfl, rfl, rfl, rfl⟩
  · exact ⟨rfl, rfl, rfl, rfl, rfl, rfl⟩

theorem AddUiViewsCommandDo_fields (models : List VM) (s : SMState) :
    (AddUiViewsCommandDo models s).isEditing = s.isEditing
    ∧ (AddUiViewsCommandDo models s).hasRunner = s.hasRunner
    ∧ (AddUiViewsCommandDo models s).cardIndex = s.cardIndex
    ∧ (AddUiViewsCommandDo models s).uiCardUi = s.uiCardUi
    ∧ (AddUiViewsCommandDo models s).selectedViews = s.selectedViews
    ∧ (AddUiViewsCommandDo models s).history = s.history := by
  induction models generalizing s with
  | nil => exact ⟨rfl, rfl, rfl, rfl, rfl, rfl⟩
  | cons m ms ih =>
    obtain ⟨i1, i2, i3, i4, i5, i6⟩ := ih (AddUiViewInternal s m)
    obtain ⟨a1, a2, a3, a4, a5, a6⟩ := AddUiViewInternal_fields s m
    exact ⟨i1.trans a1, i2.trans a2, i3.trans a3, i4.trans a4, i5.trans a5, i6.trans a6⟩

theorem SelectUiView_not_editing (s : SMState) (v : Option UiV) (e : Bool)
    (h : s.isEditing = false) : SelectUiView s v e = s := by
  simp [SelectUiView, h]

theorem SelectUiView_none (s : SMState) (h : s.isEditing = true) :
    SelectUiView s none false = { s with selectedViews := [] } := by
  obtain ⟨ed, r, cs, ci, ucu, uv, sel, hist, nid⟩ := s
  subst h
  cases sel <;> simp [SelectUiView]

theorem SelectUiView_some_fresh (s : SMState) (u : UiV) (h : s.isEditing = true) :
    SelectUiView s (some u) false = { s with selectedViews := [u] } := by
  obtain ⟨ed, r, cs, ci, ucu, uv, sel, hist, nid⟩ := s
  subst h
  cases sel <;> simp [SelectUiView]

theorem SelectUiView_toggle (s : SMState) (u : UiV)
    (h : s.isEditing = true)
    (hu : u ∈ s.selectedViews)
    (hg : ∀ x ∈ s.selectedViews, x.parentType ≠ some "group" ∧ x.vm.type ≠ "card") :
    SelectUiView s (some u) true = { s with selectedViews := s.selectedViews.erase u } := by
  obtain ⟨hd, tl, hsel⟩ := List.exists_cons_of_ne_nil (List.ne_nil_of_mem hu)
  have hhd := hg hd (by rw [hsel]; exact List.mem_cons_self hd tl)
  have hu2 := hg u hu
  have f1 : (u.parentType == some "group") = false := beq_eq_false_iff_ne.mpr hu2.1
  have f2 : (hd.parentType == some "group") = false := beq_eq_false_iff_ne.mpr hhd.1
  have f3 : (hd.vm.type == "card") = false := beq_eq_false_iff_ne.mpr hhd.2
  have f4 : (u.vm.type == "card") = false := beq_eq_false_iff_ne.mpr hu2.2
  rw [hsel] at hu
  simp [SelectUiView, h, hsel, uiParentIsGroup, headParentIsGroup, headIsCard,
    uiIsCard, f1, f2, f3, f4, hu]

end CardStock

namespace CardStock

/-- C9: in the submit-but-do-not-record mode (`canUndo=False`),
`AddUiViewsFromModels` applies the mutation to the entity model exactly once
— the resulting cards, ui views, selection and card index are identical to
those of a recorded submission — but no command is pushed onto the undo
history: the history is exactly as it was before, while the recorded
submission appends an entry (truncating the redo tail) instead. -/
theorem c9_addViews_noRecord (s : SMState) (models : List VM) :
    (AddUiViewsFromModels s models false).history = s.history
    ∧ (AddUiViewsFromModels s models false).cards = (AddUiViewsFromModels s models true).cards
    ∧ (AddUiViewsFromModels s models false).uiViews = (AddUiViewsFromModels s models true).uiViews
    ∧ (AddUiViewsFromModels s models false).selectedViews
        = (AddUiViewsFromModels s models true).selectedViews
    ∧ (AddUiViewsFromModels s models false).cardIndex
        = (AddUiViewsFromModels s models true).cardIndex
    ∧ (AddUiViewsFromModels s models true).history.commands
        = s.history.commands.take s.history.cursor ++ ["Add Views"] := by
  unfold AddUiViewsFromModels CommandProcessorSubmit
  simp only [Bool.false_eq_true, if_false, if_true, reduceIte]
  refine ⟨(AddUiViewsCommandDo_fields _ s).2.2.2.2.2, ?_, ?_, ?_, ?_, ?_⟩
  · trivial
  · trivial
  · trivial
  · trivial
  · rw [(AddUiViewsCommandDo_fields _ s).2.2.2.2.2]

theorem ClearAllViews_editing (s : SMState) (h : s.isEditing = true) :
    ClearAllViews s =
      { s with
        selectedViews := []
        uiViews := s.uiViews.filter (fun ui => ui.vm.type == "card") } := by
  unfold ClearAllViews
  rw [SelectUiView_none s h]

theorem ClearAllViews_viewer (s : SMState) (h : s.isEditing = false) :
    ClearAllViews s = { s with
      uiViews := s.uiViews.filter (fun ui => ui.vm.type == "card") } := by
  unfold ClearAllViews
  rw [SelectUiView_not_editing s none false h]

theorem AddUiViewsFromModels_false_fields (s : SMState) (models : List VM) :
    (AddUiViewsFromModels s models false).isEditing = s.isEditing
    ∧ (AddUiViewsFromModels s models false).hasRunner = s.hasRunner
    ∧ (AddUiViewsFromModels s models false).cardIndex = s.cardIndex
    ∧ (AddUiViewsFromModels s models false).uiCardUi = s.uiCardUi
    ∧ (AddUiViewsFromModels s models false).selectedViews = s.selectedViews := by
  unfold AddUiViewsFromModels
  simp only [Bool.false_eq_true, if_false, reduceIte]
  exact ⟨(AddUiViewsCommandDo_fields _ s).1, (AddUiViewsCommandDo_fields _ s).2.1,
    (AddUiViewsCommandDo_fields _ s).2.2.1, (AddUiViewsCommandDo_fields _ s).2.2.2.1,
    (AddUiViewsCommandDo_fields _ s).2.2.2.2.1⟩

theorem AddUiViewsFromModels_false_isEditing (s : SMState) (models : List VM) :
    (AddUiViewsFromModels s models false).isEditing = s.isEditing :=
  (AddUiViewsFromModels_false_fields s models).1

theorem AddUiViewsFromModels_false_hasRunner (s : SMState) (models : List VM) :
    (AddUiViewsFromModels s models false).hasRunner = s.hasRunner :=
  (AddUiViewsFromModels_false_fields s models).2.1

theorem AddUiViewsFromModels_false_cardIndex (s : SMState) (models : List VM) :
    (AddUiViewsFromModels s models false).cardIndex = s.cardIndex :=
  (AddUiViewsFromModels_false_fields s models).2.2.1


/-- C6: removing a node that is currently selected removes it from the
selection set as part of the same `RemoveUiViewByModel` call (the selection
update happens before the model is detached), so the selection set does not
contain the detached node afterwards; the node is also removed from
`uiViews`.  The hypotheses are the selection-scope invariants maintained by
`SelectUiView` in every reachable editing-mode state: the selection has no
duplicates, never holds a group-child (a group-child selection is always a
singleton, and such an element is never in `uiViews`), and never holds the
card itself alongside removable views. -/
theorem c6_remove_selected (s : SMState) (u : UiV)
    (hEdit : s.isEditing = true)
    (hFind : s.uiViews.find? (fun ui => ui.vm == u.vm) = some u)
    (hSel : u ∈ s.selectedViews)
    (hNodup : s.selectedViews.Nodup)
    (hScope : ∀ x ∈ s.selectedViews, x.parentType ≠ some "group" ∧ x.vm.type ≠ "card") :
    (RemoveUiViewByModel s u.vm).selectedViews = s.selectedViews.erase u
    ∧ u ∉ (RemoveUiViewByModel s u.vm).selectedViews
    ∧ (RemoveUiViewByModel s u.vm).uiViews = s.uiViews.erase u := by
  have hrm : RemoveUiViewByModel s u.vm =
      SMState.modifyCurrentCard
        { s with selectedViews := s.selectedViews.erase u, uiViews := s.uiViews.erase u }
        (fun c => { c with children := c.children.erase u.vm }) := by
    unfold RemoveUiViewByModel
    rw [hFind]
    dsimp only
    rw [if_pos hSel, SelectUiView_toggle s u hEdit hSel hScope]
  rw [hrm]
  exact ⟨rfl, fun hmem => ((List.Nodup.mem_erase_iff hNodup).mp hmem).1 rfl, rfl⟩

/-- A concrete button model/ui and an editing-mode state where it is
selected, for the C6 witness. -/
def vmB1 : VM := { name := "button_1", type := "button" }

def uiB1 : UiV := { id := 1, vm := vmB1, parentType := some "card" }

def sEdit : SMState :=
  { isEditing := true, hasRunner := false,
    cards := [{ vm := { name := "card_1", type := "card" },
                children := [vmB1], onShowCard := "" }],
    cardIndex := some 0,
    uiCardUi := { id := 0, vm := { name := "card_1", type := "card" }, parentType := none },
    uiViews := [uiB1], selectedViews := [uiB1],
    history := { commands := [], cursor := 0 }, nextUiId := 2 }

/-- Two empty cards and a viewer-mode (non-editing) state showing card 0,
with a runner attached. -/
def cardA : Card :=
  { vm := { name := "card_1", type := "card" }, children := [], onShowCard := "" }

def cardB : Card :=
  { vm := { name := "card_2", type := "card" }, children := [], onShowCard := "" }

def sViewer : SMState :=
  { isEditing := false, hasRunner := true,
    cards := [cardA, cardB], cardIndex := some 0,
    uiCardUi := { id := 0, vm := cardA.vm, parentType := none },
    uiViews := [], selectedViews := [],
    history := { commands := [], cursor := 0 }, nextUiId := 1 }

/-- C5 counterexample: navigating `LoadCardAtIndex(1)` in the viewer loads a
card, yet the selection set afterwards is empty — it is NOT reset to the
newly active card, because `SelectUiView` only acts in editing mode. -/
theorem c5_counterexample :
    (LoadCardAtIndex sViewer (some 1) false).map (fun r => r.1.selectedViews)
      = some [] ∧
    (LoadCardAtIndex sViewer (some 1) false).map
        (fun r => decide (r.1.selectedViews = [r.1.uiCardUi])) = some false := by
  decide

/-- C5 amended: in editing mode (the designer), every card navigation via
`LoadCardAtIndex` that loads a card resets the selection set so that the
newly active card itself is the sole selected object (and, being an edit-mode
navigation, fires no handler-runner events); in viewer mode the selection is
left untouched (it stays empty). -/
theorem c5_amended (s : SMState) (j : Int) (cj : Card)
    (hEdit : s.isEditing = true)
    (hNe : some j ≠ s.cardIndex)
    (hGet : s.getCard j = some cj) :
    ∃ r, LoadCardAtIndex s (some j) false = some r
      ∧ r.1.selectedViews = [{ s.uiCardUi with vm := cj.vm }]
      ∧ r.1.cardIndex = some j
      ∧ r.2 = [] := by
  obtain ⟨ed, run, cs, ci, ucu, uv, sel, hist, nid⟩ := s
  dsimp only at hNe hGet hEdit ⊢
  subst hEdit
  unfold LoadCardAtIndex
  rw [if_pos (Or.inl hNe)]
  simp only [SMState.getCard] at hGet
  simp only [Bool.not_true, Bool.false_and, Bool.false_eq_true, if_false,
    Option.pure_def, Option.bind_eq_bind, Option.some_bind, SMState.getCard]
  rw [ClearAllViews_editing _ rfl]
  dsimp only
  rw [hGet]
  simp only [Option.some_bind]
  set s4 : SMState :=
    { isEditing := true, hasRunner := run, cards := cs, cardIndex := some j,
      uiCardUi := { id := ucu.id, vm := cj.vm, parentType := ucu.parentType },
      uiViews := [], selectedViews := [], history := hist, nextUiId := nid } with hs4
  set s5 := AddUiViewsFromModels s4 cj.children false with hs5
  have hE5 : s5.isEditing = true := (AddUiViewsFromModels_false_fields s4 cj.children).1.trans rfl
  rw [SelectUiView_some_fresh s5 s5.uiCardUi hE5]
  refine ⟨_, rfl, ?_, ?_, ?_⟩
  · show [s5.uiCardUi] = _
    rw [(AddUiViewsFromModels_false_fields s4 cj.children).2.2.2.1]
  · show s5.cardIndex = some j
    rw [(AddUiViewsFromModels_false_fields s4 cj.children).2.2.1]
  · show ([] ++ if (!s5.isEditing && s5.hasRunner) = true then _ else []) = ([] : List Ev)
    rw [hE5]
    simp


/-- An editing-mode (designer) two-card state showing card 0, for the C5
witness. -/
def sEditNav : SMState :=
  { isEditing := true, hasRunner := false,
    cards := [cardA, cardB], cardIndex := some 0,
    uiCardUi := { id := 0, vm := cardA.vm, parentType := none },
    uiViews := [], selectedViews := [],
    history := { commands := [], cursor := 0 }, nextUiId := 1 }

/-- C5 witness: the amended theorem applied to the concrete editing-mode
state, navigating from card 0 to card 1. -/
theorem c5_witness :
    sEditNav.isEditing = true ∧ some (1 : Int) ≠ sEditNav.cardIndex ∧
    (∃ r, LoadCardAtIndex sEditNav (some 1) false = some r
      ∧ r.1.selectedViews = [{ sEditNav.uiCardUi with vm := cardB.vm }]
      ∧ r.1.cardIndex = some 1
      ∧ r.2 = []) :=
  ⟨rfl, by decide, c5_amended sEditNav 1 cardB rfl (by decide) (by decide)⟩

/-- C4 counterexample: a viewer-mode transition from card 0 to card 1 where
card 1 has no `OnShowCard` handler.  The transition goes to a different
index, yet only `OnHideCard` is delivered to the handler runner — the
will-hide/did-show pair is NOT fired exactly once per transition, because
`OnShowCard` is only fired when the card's handler text is non-empty. -/
theorem c4_counterexample :
    (LoadCardAtIndex sViewer (some 1) false).map (fun r => lifecycleEvents r.2)
      = some [Ev.runHandler "card_1" "OnHideCard"] ∧
    (LoadCardAtIndex sViewer (some 1) false).map
        (fun r => (lifecycleEvents r.2).contains (Ev.runHandler "card_2" "OnShowCard"))
      = some false := by
  decide

/-- C4 amended: in viewer mode with a runner attached, a non-reload
`LoadCardAtIndex` navigation from a loaded card `i` to a different index `j`
fires `OnHideCard` on the previously active card and then `OnShowCard` on the
newly active card if and only if that card's `OnShowCard` handler text is
non-empty (the other runner call of the transition, `SetupForCard`, is not a
lifecycle handler event); navigating to the currently active index without a
forced reload is a complete no-op (state unchanged, no runner calls); and a
forced reload of the current card fires no lifecycle events either. -/
theorem c4_amended (s : SMState) (i j : Int) (cOld cNew : Card)
    (hEdit : s.isEditing = false) (hRun : s.hasRunner = true)
    (hIdx : s.cardIndex = some i)
    (hGetI : s.getCard i = some cOld) (hGetJ : s.getCard j = some cNew)
    (hNe : j ≠ i) :
    (∃ r, LoadCardAtIndex s (some j) false = some r
      ∧ lifecycleEvents r.2 =
          Ev.runHandler cOld.vm.name "OnHideCard" ::
            (if cNew.onShowCard ≠ "" then [Ev.runHandler cNew.vm.name "OnShowCard"] else []))
    ∧ LoadCardAtIndex s (some i) false = some (s, [])
    ∧ (∃ r, LoadCardAtIndex s (some i) true = some r ∧ lifecycleEvents r.2 = []) := by
  obtain ⟨ed, run, cs, cidx, ucu, uv, sel, hist, nid⟩ := s
  dsimp only at hEdit hRun hIdx hGetI hGetJ ⊢
  subst hEdit
  subst hRun
  subst hIdx
  simp only [SMState.getCard] at hGetI hGetJ
  refine ⟨?_, ?_, ?_⟩
  · unfold LoadCardAtIndex
    rw [if_pos (Or.inl (fun h => hNe (Option.some.inj h)))]
    simp only [Bool.not_false, Option.isSome_some, Bool.and_true, Bool.true_and,
      Bool.and_self, if_true, Option.pure_def, Option.bind_eq_bind, Option.some_bind,
      SMState.getCard]
    rw [hGetI]
    simp only [Option.some_bind]
    rw [ClearAllViews_viewer _ rfl]
    dsimp only
    rw [hGetJ]
    simp only [Option.some_bind]
    rw [SelectUiView_not_editing _ _ _ (by rw [AddUiViewsFromModels_false_isEditing])]
    refine ⟨_, rfl, ?_⟩
    rw [AddUiViewsFromModels_false_isEditing, AddUiViewsFromModels_false_hasRunner]
    dsimp only
    by_cases hshow : cNew.onShowCard = ""
    · simp [hshow, lifecycleEvents, isLifecycleEv]
    · simp [hshow, lifecycleEvents, isLifecycleEv]
  · unfold LoadCardAtIndex
    rw [if_neg (by simp)]
    rfl
  · unfold LoadCardAtIndex
    rw [if_pos (Or.inr rfl)]
    simp only [Bool.not_true, Bool.and_false, Bool.false_eq_true, if_false,
      Option.pure_def, Option.bind_eq_bind, Option.some_bind, SMState.getCard]
    rw [ClearAllViews_viewer _ rfl]
    dsimp only
    rw [hGetI]
    simp only [Option.some_bind]
    rw [SelectUiView_not_editing _ _ _ (by rw [AddUiViewsFromModels_false_isEditing])]
    refine ⟨_, rfl, ?_⟩
    rw [AddUiViewsFromModels_false_isEditing, AddUiViewsFromModels_false_hasRunner]
    simp [lifecycleEvents, isLifecycleEv]

/-- A second card carrying a non-empty `OnShowCard` handler, and a
viewer-mode state showing card 0, for the C4 witness. -/
def cardC : Card :=
  { vm := { name := "card_2", type := "card" }, children := [],
    onShowCard := "print(1)" }

def sViewerShow : SMState :=
  { isEditing := false, hasRunner := true,
    cards := [cardA, cardC], cardIndex := some 0,
    uiCardUi := { id := 0, vm := cardA.vm, parentType := none },
    uiViews := [], selectedViews := [],
    history := { commands := [], cursor := 0 }, nextUiId := 1 }

/-- C4 witness: the amended theorem applied to the concrete viewer state
whose second card does have an `OnShowCard` handler, so the transition fires
exactly the hide/show pair. -/
theorem c4_witness :
    sViewerShow.isEditing = false ∧ sViewerShow.hasRunner = true ∧ (1 : Int) ≠ 0 ∧
    ((∃ r, LoadCardAtIndex sViewerShow (some 1) false = some r
        ∧ lifecycleEvents r.2 =
            Ev.runHandler cardA.vm.name "OnHideCard" ::
              (if cardC.onShowCard ≠ "" then [Ev.runHandler cardC.vm.name "OnShowCard"]
               else []))
      ∧ LoadCardAtIndex sViewerShow (some 0) false = some (sViewerShow, [])
      ∧ (∃ r, LoadCardAtIndex sViewerShow (some 0) true = some r
          ∧ lifecycleEvents r.2 = [])) :=
  ⟨rfl, rfl, by decide,
    c4_amended sViewerShow 0 1 cardA cardC rfl rfl rfl (by decide) (by decide) (by decide)⟩

/-- C6 witness: the theorem applied to the concrete editing-mode state. -/
theorem c6_witness :
    sEdit.isEditing = true ∧ uiB1 ∈ sEdit.selectedViews ∧
    uiB1 ∉ (RemoveUiViewByModel sEdit uiB1.vm).selectedViews ∧
    (RemoveUiViewByModel sEdit uiB1.vm).uiViews = [] :=
  ⟨rfl, by decide,
    (c6_remove_selected sEdit uiB1 rfl (by decide) (by decide) (by decide) (by decide)).2.1,
    by rw [(c6_remove_selected sEdit uiB1 rfl (by decide) (by decide) (by decide)
        (by decide)).2.2]; decide⟩

end CardStock

namespace CardStock

/-! ### The nested-stack execution controller (src/cardstock/viewer.py)

`ViewerFrame` state relevant to `GosubStack` (lines 323-357), `PushStack`
(lines 359-369), `PopStack` (lines 371-390) and `RunViewer` (lines 414-436).

A `VRunner` is the script-context state of one `Runner` object: its
`stackSetupValue`, the value last delivered by `DoReturnFromStack`, and
whether its timers run.  `rid` models Python object identity (fresh ids come
from `ViewerState.nextRid`).  A `VStackModel` stands for one loaded
`StackModel` (`mid` is its identity, `numCards` its number of cards — the
only model datum these methods read, for the card-index clamp).  A `VFrame`
is one `[runner, stackModel, filename, cardIndex]` entry of `stackStack`.

The Python list keeps the top of the stack at its END (`append`, `[-1]`,
`pop()`); this embedding keeps the top at the HEAD of the list, so those
three operations become cons, head and tail.

The `stackManager` fields mirror the viewer's stack manager: its current
model, card index, runner, filename and undo history.  In Python the top
frame's runner/model entries alias the stack manager's current ones; here
the invariant is maintained explicitly: `PushStack` writes the live
`smRunner`/`smCardIndex` into the suspended frame, and nothing reads a
frame's entries while it is on top. -/

structure VRunner where
  rid : Nat
  stackSetupValue : Option Int
  returnedValue : Option Int
  timersRunning : Bool
  deriving DecidableEq

structure VStackModel where
  mid : Nat
  numCards : Nat
  deriving DecidableEq

structure VFrame where
  runner : VRunner
  model : VStackModel
  filename : Option String
  cardIndex : Option Int
  deriving DecidableEq

structure ViewerState where
  stackStack : List VFrame
  smModel : VStackModel
  smCardIndex : Option Int
  smRunner : VRunner
  smFilename : Option String
  smHistory : List String
  nextRid : Nat
  deriving DecidableEq

/-- `Runner.StopTimers()`. -/
def StopTimers (r : VRunner) : VRunner := { r with timersRunning := false }

/-- `Runner.GetStackSetupValue()`, what `stack.get_setup_value()` returns to
the running script (src/cardstock/stackModel.py line 123). -/
def GetStackSetupValue (r : VRunner) : Option Int := r.stackSetupValue

/-- `Runner.DoReturnFromStack(returnValue)`: deliver the return value to the
resumed frame's script context. -/
def DoReturnFromStack (r : VRunner) (v : Option Int) : VRunner :=
  { r with returnedValue := v }

/-- Modelled from the spec: the viewer's `StackManager.SetStackModel(model,
True)` lives in the newer `stackManager.py`, not under src/; per §4.2/§6.2 it
installs the model and resets the frame's (independent) undo history — cf.
`SetStackModel` in src/stackManager.py lines 150-159, which clears the
command processor. -/
def vsmSetStackModel (s : ViewerState) (m : VStackModel) : ViewerState :=
  { s with smModel := m, smHistory := [] }

/-- The viewer-side effect of `StackManager.LoadCardAtIndex`: set the current
card index (runner lifecycle calls are modelled in `LoadCardAtIndex` above on
the designer state and are not needed for the call/return claims). -/
def vsmLoadCardAtIndex (s : ViewerState) (idx : Option Int) : ViewerState :=
  { s with smCardIndex := idx }

/-- `ViewerFrame.RunViewer(runner, stackModel, filename, cardIndex, ioValue,
isGoingBack)` (src/cardstock/viewer.py 414-436): install the model and
filename, give a pushed (not popped) runner its setup value, make it current,
load no card and then the clamped `cardIndex`, and on a pop deliver the
return value via `DoReturnFromStack`.  Returns `none` when Python would raise
(`0 <= cardIndex` with `cardIndex = None` is a `TypeError`). -/
def RunViewer (s : ViewerState) (runner : VRunner) (model : VStackModel)
    (filename : Option String) (cardIndex : Option Int) (ioValue : Option Int)
    (isGoingBack : Bool) : Option ViewerState :=
  let s := vsmSetStackModel s model
  let s := { s with smFilename := filename }
  let runner := if !isGoingBack then { runner with stackSetupValue := ioValue } else runner
  let s := { s with smRunner := runner }
  let s := vsmLoadCardAtIndex s none
  match cardIndex with
  | none => none
  | some ci =>
    let ci := if 0 ≤ ci ∧ ci < (model.numCards : Int) then ci else 0
    let s := vsmLoadCardAtIndex s (some ci)
    some (if isGoingBack then { s with smRunner := DoReturnFromStack s.smRunner ioValue }
          else s)

/-- `ViewerFrame.PushStack(stackModel, filename, cardIndex, setupValue)`
(src/cardstock/viewer.py 359-369): save the live card index into the top
frame and stop the current runner's timers (in Python the top frame's
runner IS the current runner, so both copies are updated here), create a
fresh runner, push the new frame, and run the viewer on it. -/
def PushStack (s : ViewerState) (stackModel : VStackModel) (filename : Option String)
    (cardIndex : Option Int) (setupValue : Option Int) : Option ViewerState :=
  let s :=
    match s.stackStack with
    | fr :: rest =>
      { s with
        stackStack :=
          { fr with cardIndex := s.smCardIndex, runner := StopTimers s.smRunner } :: rest
        smRunner := StopTimers s.smRunner }
    | [] => s
  let newRunner : VRunner :=
    { rid := s.nextRid, stackSetupValue := none, returnedValue := none, timersRunning := true }
  let s := { s with nextRid := s.nextRid + 1 }
  let newFrame : VFrame :=
    { runner := newRunner, model := stackModel, filename := filename, cardIndex := cardIndex }
  let s := { s with stackStack := newFrame :: s.stackStack }
  RunViewer s newRunner stackModel filename cardIndex setupValue false

/-- `ViewerFrame.PopStack(returnValue, isShuttingDown)` (src/cardstock/viewer.py
371-390): with more than one frame, tear down the leaving stack (runner
cleanup and model dismantling are external teardown), pop it, and re-run the
viewer on the previous frame with `isGoingBack=True`; when shutting down just
reinstate the previous frame's runner and model.  With at most one frame it
does nothing. -/
def PopStack (s : ViewerState) (returnValue : Option Int) (isShuttingDown : Bool) :
    Option ViewerState :=
  match s.stackStack with
  | _top :: parts :: rest =>
    let s := { s with stackStack := parts :: rest }
    if !isShuttingDown then
      RunViewer s parts.runner parts.model parts.filename parts.cardIndex returnValue true
    else
      some { s with
        smRunner := parts.runner
        smModel := parts.model
        smCardIndex := some 0
        smHistory := [] }
  | _ => some s

/-- What resolving and reading a `Call` target file can yield: the file is
missing (`FileNotFoundError`), holds malformed JSON (`json.JSONDecodeError`),
holds a falsy JSON value (`data` fails the `if data:` test), or parses into a
stack model. -/
inductive FileContent where
  | missing
  | invalidJson
  | nullJson
  | valid (m : VStackModel)
  deriving DecidableEq

/-- `ViewerFrame.GosubStack(filename, cardNumber, ioValue)`
(src/cardstock/viewer.py 323-357).  `fs` abstracts the filesystem after the
source's path resolution (relative names joined to the current stack's
directory).  With a filename: a missing file raises `FileNotFoundError`,
which the `except (TypeError, FileNotFoundError)` clause turns into `False`;
malformed JSON raises `json.JSONDecodeError` — a `ValueError`, NOT caught by
that clause — modelled as `none` (the exception propagates out); falsy JSON
skips the push and falls off the function (Python returns `None`, falsy);
otherwise the stack model is built and pushed.  Without a filename: pop if
more than one frame is on the stack, else report failure.  The pushed/popped
work is marshalled to the main thread via `RunOnMainAsync`; this model
sequences it before the `True` return. -/
def GosubStack (fs : String → FileContent) (s : ViewerState) (filename : Option String)
    (cardNumber : Option Int) (ioValue : Option Int) : Option (Bool × ViewerState) :=
  match filename with
  | some fname =>
    match fs fname with
    | .missing => some (false, s)
    | .invalidJson => none
    | .nullJson => some (false, s)
    | .valid m =>
      match PushStack s m (some fname) cardNumber ioValue with
      | some s2 => some (true, s2)
      | none => none
  | none =>
    if s.stackStack.length > 1 then
      match PopStack s ioValue false with
      | some s2 => some (true, s2)
      | none => none
    else some (false, s)

end CardStock

namespace CardStock

/-- C3: with exactly one frame on the call stack, `Return`
(`GosubStack` with no filename) reports failure and has no side effects: the
returned state is the input state itself, so no frame is popped and the
document, active card index, runner state and undo history are all
unchanged. -/
theorem c3_return_single_frame (fs : String → FileContent) (s : ViewerState)
    (cardNumber ioValue : Option Int)
    (h : s.stackStack.length = 1) :
    GosubStack fs s none cardNumber ioValue = some (false, s) := by
  unfold GosubStack
  rw [if_neg (by omega)]

/-- A one-frame viewer state (root document loaded, card 1 current, one
command in the history) and degenerate filesystems, for the C2/C3 theorems. -/
def rRoot : VRunner :=
  { rid := 0, stackSetupValue := none, returnedValue := none, timersRunning := true }

def mRoot : VStackModel := { mid := 0, numCards := 3 }

def frRoot : VFrame :=
  { runner := rRoot, model := mRoot, filename := none, cardIndex := some 0 }

def vsRoot : ViewerState :=
  { stackStack := [frRoot], smModel := mRoot, smCardIndex := some 1,
    smRunner := rRoot, smFilename := some "main.cds", smHistory := ["cmd1"],
    nextRid := 1 }

/-- C3 witness: the theorem applied to the concrete one-frame state. -/
theorem c3_witness :
    vsRoot.stackStack.length = 1 ∧
    GosubStack (fun _ => FileContent.missing) vsRoot none none (some 7)
      = some (false, vsRoot) :=
  ⟨rfl, c3_return_single_frame (fun _ => FileContent.missing) vsRoot none (some 7) rfl⟩

def fsMissing : String → FileContent := fun _ => FileContent.missing

def fsBadJson : String → FileContent := fun _ => FileContent.invalidJson

/-- C2: evaluating `GosubStack` at the two failure inputs.  A `Call` whose
target cannot be LOCATED does return a failure signal with the calling frame
fully untouched (the state — card index, history, document — is returned
verbatim).  But a `Call` whose target exists and cannot be PARSED (malformed
JSON) does NOT return a failure signal: `json.JSONDecodeError` is a
`ValueError`, absent from the `except (TypeError, FileNotFoundError)` clause,
so the exception propagates out of `GosubStack` (modelled as `none`). -/
theorem c2_call_failure_eval :
    GosubStack fsMissing vsRoot (some "sub.cds") (some 0) (some 42)
      = some (false, vsRoot) ∧
    GosubStack fsBadJson vsRoot (some "sub.cds") (some 0) (some 42) = none :=
  ⟨rfl, rfl⟩

/-- C1: calling into a sub-stack and returning round-trips.  From a state
whose current card index `i` is valid and whose top frame holds the current
document, `Call("sub.cds", inputValue=v)` pushes a frame and succeeds, and
the sub-document\'s script context observes `v` as its setup value
(`GetStackSetupValue`); a subsequent `Return(w)` pops it and succeeds, the
frame below is reactivated with its runner (same identity `rid`) and document
current again and the card index restored to `i`, and `w` is delivered to the
resumed frame\'s script context as the return value. -/
theorem c1_call_return (fs : String → FileContent) (s : ViewerState) (fr : VFrame)
    (rest : List VFrame) (i : Int) (subM : VStackModel) (v w : Int)
    (hStack : s.stackStack = fr :: rest)
    (hFrM : fr.model = s.smModel)
    (hIdx : s.smCardIndex = some i)
    (h0 : 0 ≤ i) (hLt : i < (s.smModel.numCards : Int))
    (hfs : fs "sub.cds" = FileContent.valid subM) :
    ∃ s1 s2,
      GosubStack fs s (some "sub.cds") (some 0) (some v) = some (true, s1)
      ∧ GetStackSetupValue s1.smRunner = some v
      ∧ GosubStack fs s1 none none (some w) = some (true, s2)
      ∧ s2.smCardIndex = some i
      ∧ s2.smRunner.returnedValue = some w
      ∧ s2.smRunner.rid = s.smRunner.rid
      ∧ s2.smModel = s.smModel := by
  obtain ⟨stk, m, ci0, r, fn, hist, nrid⟩ := s
  dsimp only at hStack hFrM hIdx hLt ⊢
  subst hStack
  subst hIdx
  refine ⟨
    { stackStack :=
        { runner := { rid := nrid, stackSetupValue := none, returnedValue := none,
                      timersRunning := true },
          model := subM, filename := some "sub.cds", cardIndex := some 0 } ::
          { fr with cardIndex := some i, runner := StopTimers r } :: rest
      smModel := subM
      smCardIndex := some 0
      smRunner := { rid := nrid, stackSetupValue := some v, returnedValue := none,
                    timersRunning := true }
      smFilename := some "sub.cds"
      smHistory := []
      nextRid := nrid + 1 },
    { stackStack := { fr with cardIndex := some i, runner := StopTimers r } :: rest
      smModel := fr.model
      smCardIndex := some i
      smRunner := { rid := r.rid, stackSetupValue := r.stackSetupValue,
                    returnedValue := some w, timersRunning := false }
      smFilename := fr.filename
      smHistory := []
      nextRid := nrid + 1 },
    ?_, rfl, ?_, rfl, rfl, rfl, hFrM⟩
  · unfold GosubStack
    dsimp only
    rw [hfs]
    unfold PushStack RunViewer vsmSetStackModel vsmLoadCardAtIndex
    simp only [Bool.not_false, Bool.not_true, reduceIte, ite_self]
    rfl
  · unfold GosubStack
    dsimp only
    rw [if_pos (by simp only [List.length_cons]; omega)]
    unfold PopStack RunViewer vsmSetStackModel vsmLoadCardAtIndex
    dsimp only
    simp only [Bool.not_false, Bool.not_true, reduceIte]
    rw [if_pos ⟨h0, by rw [hFrM]; exact hLt⟩]
    rfl

end CardStock

namespace CardStock

/-- The sub-stack document and a filesystem resolving every name to it, for
the C1 witness. -/
def subM0 : VStackModel := { mid := 1, numCards := 2 }

def fsSub : String → FileContent := fun _ => FileContent.valid subM0

/-- C1 witness: the round-trip theorem applied to the concrete one-frame
state: `Call("sub.cds", inputValue=42)` then `Return(7)` resumes the root
frame at card index 1 with return value 7. -/
theorem c1_witness :
    vsRoot.stackStack = frRoot :: [] ∧ frRoot.model = vsRoot.smModel ∧
    vsRoot.smCardIndex = some 1 ∧ (0 : Int) ≤ 1 ∧
    (1 : Int) < (vsRoot.smModel.numCards : Int) ∧
    (∃ s1 s2, GosubStack fsSub vsRoot (some "sub.cds") (some 0) (some 42) = some (true, s1)
      ∧ GetStackSetupValue s1.smRunner = some 42
      ∧ GosubStack fsSub s1 none none (some 7) = some (true, s2)
      ∧ s2.smCardIndex = some 1
      ∧ s2.smRunner.returnedValue = some 7
      ∧ s2.smRunner.rid = vsRoot.smRunner.rid
      ∧ s2.smModel = vsRoot.smModel) :=
  ⟨rfl, rfl, rfl, by decide, by decide,
    c1_call_return fsSub vsRoot frRoot [] 1 subM0 42 7 rfl rfl rfl
      (by decide) (by decide) rfl⟩

end CardStock
